import Mathlib

/-!
Verification development for `testcode/lock_verify.c`, the lock-trace
verifier: it reads binary lock traces (creation and ordering records),
builds an order graph over locks, and detects ordering cycles by a
depth-first sweep.

The embedding follows the C source closely:
* `order_id` / `order_lock` / `lock_ref` mirror the C structs; the rbtrees
  (the registry `all` and each lock's `smaller` set) are modelled as lists
  kept sorted by `order_lock_cmp`, with insert failing on a duplicate key
  and iteration happening in list (= key) order.
* machine `int` fields are `Int`; the one place the C narrows to 32 bits
  (the `(int)` cast in `read_header`'s timestamp comparison) is modelled by
  `toInt32`.
* a trace file body is a stream of tokens (`Tok.int` / `Tok.str`): the C
  `fread`/`readup_str` calls consume them in order, and a missing or
  mis-shaped field is the fatal `fread`/format error of the C code.
* `fatal_exit` is `Except.error` with a `Fatal` reason; the static state of
  `read_header` is the explicit `HeaderState`.
* the recursive `search_cycle` may diverge on graphs the C code loops on,
  so it takes explicit fuel and returns `none` when the fuel runs out.
-/

/-- Key for lock lookup: creating thread id and creation instance number
(struct `order_id` in the C source). -/
structure OrderId where
  thr : Int
  inst : Int
deriving DecidableEq, Repr

/-- Reference to a lock stored in a `smaller` set or in the DFS chain
(struct `lock_ref`): the id of the referenced lock plus the witness site. -/
structure LockRef where
  lockId : OrderId
  file : String
  line : Int
deriving DecidableEq, Repr

/-- A lock (struct `order_lock`): id, creation site, and the set of locks
observed locked earlier, kept sorted by key.  The transient traversal
fields `visited` / `dfs_next` live in `Sweep`, not here. -/
structure OrderLock where
  id : OrderId
  create_file : String
  create_line : Int
  smaller : List LockRef
deriving DecidableEq, Repr

/-- The lock registry: the C rbtree `all`, as a list sorted by
`order_lock_cmp` on the ids, with unique keys. -/
abbrev Registry := List OrderLock

/-- Comparator on lock ids, exactly `order_lock_cmp` from the C source. -/
def order_lock_cmp (o1 o2 : OrderId) : Int :=
  if o1.thr < o2.thr then -1
  else if o1.thr > o2.thr then 1
  else if o1.inst < o2.inst then -1
  else if o1.inst > o2.inst then 1
  else 0

/-- `rbtree_insert` into the registry: sorted insert, `none` on a
duplicate key. -/
def rb_insert (o : OrderLock) : Registry → Option Registry
  | [] => some [o]
  | x :: xs =>
    if order_lock_cmp o.id x.id < 0 then some (o :: x :: xs)
    else if order_lock_cmp o.id x.id = 0 then none
    else (rb_insert o xs).map (x :: ·)

/-- `rbtree_search` in the registry: first lock whose key compares equal. -/
def reg_search (all : Registry) (k : OrderId) : Option OrderLock :=
  all.find? (fun x => order_lock_cmp k x.id == 0)

/-- `rbtree_insert` into a lock's `smaller` set: sorted insert keyed by the
referenced lock's id, `none` on a duplicate key. -/
def ref_insert (r : LockRef) : List LockRef → Option (List LockRef)
  | [] => some [r]
  | x :: xs =>
    if order_lock_cmp r.lockId x.lockId < 0 then some (r :: x :: xs)
    else if order_lock_cmp r.lockId x.lockId = 0 then none
    else (ref_insert r xs).map (x :: ·)

/-- The `if(!rbtree_insert(now->smaller, &ref->node)) { free(ref); }` of
`read_lock`: on a duplicate key the new reference is dropped and the set
is unchanged (first witness wins). -/
def smaller_insert (l : List LockRef) (r : LockRef) : List LockRef :=
  (ref_insert r l).getD l

/-- `rbtree_search` in a `smaller` set. -/
def lookupRef (l : List LockRef) (k : OrderId) : Option LockRef :=
  l.find? (fun e => order_lock_cmp k e.lockId == 0)

/-- Number of entries of a `smaller` set carrying a given key. -/
def countKey (l : List LockRef) (k : OrderId) : Nat :=
  (l.filter (fun e => e.lockId == k)).length

/-- Reasons for `fatal_exit` (and `exit(1)` on open failure) in the C
source. -/
inductive Fatal where
  | freadFail
  | strTooLong
  | lockCreatedTwice
  | lockNotFound
  | dupThread
  | timeMismatch
deriving DecidableEq, Repr

/-- One field of a trace-file body: a 4-byte integer read by `fread`, or a
zero-terminated string read by `readup_str`. -/
inductive Tok where
  | int (v : Int)
  | str (s : String)
deriving DecidableEq, Repr

/-- Update the `smaller` set of the lock with key `nowId` (the C code
mutates the node `now` found by `rbtree_search`; keys are unique). -/
def reg_update_smaller (all : Registry) (nowId : OrderId) (r : LockRef) :
    Registry :=
  all.map fun lk =>
    if order_lock_cmp lk.id nowId == 0 then
      { lk with smaller := smaller_insert lk.smaller r }
    else lk

/-- A fresh lock as `read_create` builds it: `calloc` zeroes the traversal
fields and `rbtree_create` gives an empty `smaller` set. -/
def mkLock (thr inst : Int) (f : String) (line : Int) : OrderLock :=
  { id := ⟨thr, inst⟩, create_file := f, create_line := line, smaller := [] }

mutual

/-- The record loop of `readinput`: read a 4-byte discriminant; `-1` is a
creation record, anything else an ordering record whose earlier lock's
thread id is the discriminant itself.  End of input ends the loop. -/
def read_records (all : Registry) (toks : List Tok) : Except Fatal Registry :=
  match toks with
  | [] => .ok all
  | .int fst :: rest =>
    if fst = -1 then read_create all rest
    else read_lock all fst rest
  | .str _ :: _ => .error .freadFail

/-- `read_create`: read `{thr, instance, create_file, create_line}`, build
a lock with an empty `smaller` set, insert it; a duplicate id is the fatal
"lock created twice".  A string of 1024 or more characters is the fatal
over-length string of `readup_str`; a missing field is a fatal read
error. -/
def read_create (all : Registry) (toks : List Tok) : Except Fatal Registry :=
  match toks with
  | .int thr :: .int inst :: .str f :: .int line :: rest =>
    if 1024 ≤ f.length then .error .strTooLong
    else
      match rb_insert (mkLock thr inst f line) all with
      | none => .error .lockCreatedTwice
      | some all2 => read_records all2 rest
  | _ => .error .freadFail

/-- `read_lock`: with the discriminant `v` as the earlier lock's thread
id, read `{prevInstance, nowThreadId, nowInstance, file, line}`, look both
ids up, and insert a reference to the earlier lock into the later lock's
`smaller` set (dropped if the key is already present).  A missing lock is
the fatal "Could not find locks involved." -/
def read_lock (all : Registry) (v : Int) (toks : List Tok) :
    Except Fatal Registry :=
  match toks with
  | .int pinst :: .int nthr :: .int ninst :: .str f :: .int line :: rest =>
    if 1024 ≤ f.length then .error .strTooLong
    else
      match reg_search all ⟨v, pinst⟩, reg_search all ⟨nthr, ninst⟩ with
      | some prev, some now =>
        read_records (reg_update_smaller all now.id ⟨prev.id, f, line⟩) rest
      | _, _ => .error .lockNotFound
  | _ => .error .freadFail

end

/-- The static state of `read_header`: whether the first header has been
seen, the reference time and pid it established, and the `threads[256]`
occupancy array (as a total function; the in-bounds question is treated
separately by `read_header_indices`). -/
structure HeaderState where
  have_values : Bool
  the_time : Int
  the_pid : Int
  threads : Int → Bool

/-- Zero-initialised statics of `read_header`. -/
def initHeaderState : HeaderState :=
  { have_values := false, the_time := 0, the_pid := 0, threads := fun _ => false }

/-- Truncation of a C `long`/`time_t` difference by the `(int)` cast:
reduce to the signed 32-bit value. -/
def toInt32 (n : Int) : Int := (n + 2 ^ 31) % 2 ^ 32 - 2 ^ 31

/-- `read_header`: the first header establishes the reference time and
pid; a later header with another pid makes the file skipped (`.ok (false, _)`,
state untouched); a repeated thread number is fatal; a timestamp whose
difference from the reference, truncated by the `(int)` cast, exceeds 3600
in absolute value is fatal. -/
def read_header (hs : HeaderState) (t thrno p : Int) :
    Except Fatal (Bool × HeaderState) :=
  if !hs.have_values then
    .ok (true, { have_values := true, the_time := t, the_pid := p,
                 threads := fun i => if i = thrno then true else false })
  else if hs.the_pid ≠ p then
    .ok (false, hs)
  else if hs.threads thrno then
    .error .dupThread
  else
    let hs2 := { hs with threads := fun i => if i = thrno then true else hs.threads i }
    if 3600 < (toInt32 (hs.the_time - t)).natAbs then .error .timeMismatch
    else .ok (true, hs2)

/-- The indices with which `read_header` subscripts the `threads[256]`
array, in order.  The first header `memset`s all 256 slots and writes slot
`thrno`; a pid-mismatched header touches nothing; otherwise slot `thrno`
is read and, unless that read shows it taken, written. -/
def read_header_indices (hs : HeaderState) (thrno p : Int) : List Int :=
  if !hs.have_values then (List.range 256).map Int.ofNat ++ [thrno]
  else if hs.the_pid ≠ p then []
  else if hs.threads thrno then [thrno]
  else [thrno, thrno]

/-- A `threads[256]` subscript is in bounds exactly when it lies in
`[0, 256)`. -/
abbrev idxInBounds (i : Int) : Prop := 0 ≤ i ∧ i < 256

/-- One trace file: the three header fields and the record stream. -/
structure TraceFile where
  t : Int
  thrno : Int
  pid : Int
  body : List Tok
deriving Repr

/-- `readinput` for one file: read the header; a `false` return skips the
whole file (none of its records ingested); otherwise run the record
loop. -/
def readinput (st : HeaderState × Registry) (f : TraceFile) :
    Except Fatal (HeaderState × Registry) :=
  match read_header st.1 f.t f.thrno f.pid with
  | .error e => .error e
  | .ok (false, hs2) => .ok (hs2, st.2)
  | .ok (true, hs2) =>
    match read_records st.2 f.body with
    | .error e => .error e
    | .ok all2 => .ok (hs2, all2)

/-- The input phase of `main`: fold `readinput` over the argument files,
starting from zeroed statics and an empty registry. -/
def run_files (files : List TraceFile) :
    Except Fatal (HeaderState × Registry) :=
  files.foldlM readinput (initHeaderState, ([] : Registry))

/-- One line pair of the cycle printout of `found_cycle`: the loop index,
the witness site the `printf` actually emits (always the detection ref
`visit`'s `file`/`line`), the id and creation site of the printed next
lock, and the witness site carried by the loop variable `p` at this
iteration (the edge the walk is standing on). -/
structure StepLine where
  idx : Nat
  printedFile : String
  printedLine : Int
  nextId : OrderId
  nextFile : String
  nextLine : Int
  edgeFile : String
  edgeLine : Int
deriving DecidableEq, Repr

/-- One cycle report of `found_cycle`: the printed length (the recursion
level at detection), the head lock (the lock `visit` references) with its
creation site, and the emitted walk lines. -/
structure CycleReport where
  length : Nat
  headId : OrderId
  headFile : String
  headLine : Int
  steps : List StepLine
deriving DecidableEq, Repr

/-- The transient sweep state: the `visited` flags and `dfs_next` pointers
the C code keeps inside each `order_lock`, plus the global
`errors_detected` counter and the reports printed so far. -/
structure Sweep where
  visited : OrderId → Bool
  dfsNext : OrderId → Option LockRef
  errors : Nat
  reports : List CycleReport

/-- Sweep state at program start: `calloc` zeroes `visited` and
`dfs_next`, and `errors_detected` is 0. -/
def initSweep : Sweep :=
  { visited := fun _ => false, dfsNext := fun _ => none,
    errors := 0, reports := [] }

/-- The printing loop of `found_cycle`: starting at the detection ref
`visit`, follow `dfs_next`; each iteration prints `visit`'s witness site
and the next lock's id and creation site; the loop ends when `dfs_next`
runs out or returns to the lock `visit` references.  Fuel bounds the walk
(the C loop does not terminate on a malformed chain). -/
def cycle_walk (reg : Registry) (dn : OrderId → Option LockRef)
    (visit : LockRef) : Nat → LockRef → Nat → Option (List StepLine)
  | 0, _, _ => none
  | fuel + 1, p, i =>
    let nextId := match dn p.lockId with
                  | some r => r.lockId
                  | none => visit.lockId
    match reg_search reg nextId with
    | none => none
    | some nl =>
      let step : StepLine :=
        ⟨i, visit.file, visit.line, nextId, nl.create_file, nl.create_line,
          p.file, p.line⟩
      match dn p.lockId with
      | none => some [step]
      | some r =>
        if r.lockId = visit.lockId then some [step]
        else (cycle_walk reg dn visit fuel r (i + 1)).map (step :: ·)

/-- `found_cycle`: bump the error counter (done by the caller in this
embedding), print the length and the head lock with its creation site,
then run the walk. -/
def found_cycle (reg : Registry) (dn : OrderId → Option LockRef)
    (visit : LockRef) (level : Nat) (fuel : Nat) : Option CycleReport :=
  match reg_search reg visit.lockId with
  | none => none
  | some lk =>
    (cycle_walk reg dn visit fuel visit 0).map fun steps =>
      ⟨level, lk.id, lk.create_file, lk.create_line, steps⟩

/-- `detect_cycle`: walk the `dfs_next` chain from `p`; true iff the lock
`visit` references appears on it.  Fuel bounds the walk. -/
def detect_cycle (dn : OrderId → Option LockRef) (vid : OrderId) :
    Nat → Option LockRef → Option Bool
  | 0, _ => none
  | _ + 1, none => some false
  | fuel + 1, some r =>
    if r.lockId = vid then some true
    else detect_cycle dn vid fuel (dn r.lockId)

/-- `search_cycle`: at each visit, first probe the `dfs_next` chain from
`frm`; a hit at nonzero level is a cycle — report it and return without
descending.  Otherwise update `frm` to this visit when its lock is not yet
visited, set each smaller lock's `dfs_next` to this visit and recurse into
it, and finally mark this visit's lock visited. -/
def search_cycle (reg : Registry) :
    Nat → Sweep → LockRef → Nat → LockRef → Option Sweep
  | 0, _, _, _, _ => none
  | fuel + 1, st, visit, level, frm =>
    match detect_cycle st.dfsNext visit.lockId (fuel + 1) (some frm) with
    | none => none
    | some cyc =>
      if cyc && (level != 0) then
        match found_cycle reg st.dfsNext visit level (fuel + 1) with
        | none => none
        | some rep =>
          some { st with errors := st.errors + 1,
                         reports := st.reports ++ [rep] }
      else
        let frm2 := if st.visited visit.lockId then frm else visit
        match reg_search reg visit.lockId with
        | none => none
        | some lk =>
          match lk.smaller.foldlM
              (fun s ref =>
                search_cycle reg fuel
                  { s with dfsNext := fun i =>
                      if i = ref.lockId then some visit else s.dfsNext i }
                  ref (level + 1) frm2)
              st with
          | none => none
          | some s2 =>
            some { s2 with visited := fun i =>
                     if i = visit.lockId then true else s2.visited i }

/-- `check_order_lock`: skip locks already visited; otherwise clear the
lock's `dfs_next`, build the stack ref `start` carrying the creation site
as witness, and run the depth-first search from it at level 0. -/
def check_order_lock (reg : Registry) (fuel : Nat) (st : Sweep)
    (lk : OrderLock) : Option Sweep :=
  if st.visited lk.id then some st
  else
    let start : LockRef := ⟨lk.id, lk.create_file, lk.create_line⟩
    let st2 := { st with dfsNext := fun i =>
                   if i = lk.id then none else st.dfsNext i }
    search_cycle reg fuel st2 start 0 start

/-- `check_order`: sweep every lock of the registry in key order. -/
def check_order (reg : Registry) (fuel : Nat) : Option Sweep :=
  reg.foldlM (check_order_lock reg fuel) initSweep

/-- The exit code computed at the end of `main`:
`if(errors_detected) return 1; return 0;`. -/
def main_exit_code (errs : Nat) : Nat := if errs != 0 then 1 else 0

/-- Outcome of a run of the verifier. -/
inductive MainOutcome where
  | usageExit (code : Nat)
  | fatalStop (e : Fatal)
  | finished (errors : Nat) (exitCode : Nat)
deriving DecidableEq, Repr

/-- `main`: with no file arguments print usage and exit 1 without reading
anything; otherwise ingest every file, sweep the registry, and exit 1
exactly when errors were detected.  `none` means the sweep fuel ran
out. -/
def lock_verify_main (files : List TraceFile) (fuel : Nat) :
    Option MainOutcome :=
  if files.isEmpty then some (.usageExit 1)
  else
    match run_files files with
    | .error e => some (.fatalStop e)
    | .ok (_, all) =>
      match check_order all fuel with
      | none => none
      | some sw => some (.finished sw.errors (main_exit_code sw.errors))

/-- Trace file with locks A=(0,0), B=(0,1), C=(0,2) and the three ordering
records A<B, B<C, C<A, each created and recorded once. -/
def abcFile : TraceFile :=
  { t := 0, thrno := 0, pid := 5,
    body :=
      [ .int (-1), .int 0, .int 0, .str "a", .int 1,
        .int (-1), .int 0, .int 1, .str "b", .int 2,
        .int (-1), .int 0, .int 2, .str "c", .int 3,
        .int 0, .int 0, .int 0, .int 1, .str "ab", .int 11,
        .int 0, .int 1, .int 0, .int 2, .str "bc", .int 12,
        .int 0, .int 2, .int 0, .int 0, .str "ca", .int 13 ] }

/-- Sweep outcome over the registry built from `abcFile`. -/
def abcSweep : Option Sweep :=
  match run_files [abcFile] with
  | .ok (_, all) => check_order all 30
  | .error _ => none

/-- A single lock whose `smaller` set holds an edge to itself. -/
def selfLock (thr inst : Int) (cf : String) (cl : Int) (wf : String)
    (wl : Int) : OrderLock :=
  { id := ⟨thr, inst⟩, create_file := cf, create_line := cl,
    smaller := [⟨⟨thr, inst⟩, wf, wl⟩] }

/-- Trace file creating one lock (0,0) and recording it as smaller than
itself. -/
def selfFile : TraceFile :=
  { t := 0, thrno := 0, pid := 5,
    body :=
      [ .int (-1), .int 0, .int 0, .str "s", .int 4,
        .int 0, .int 0, .int 0, .int 0, .str "w", .int 9 ] }

/-- First file of the pid-mismatch scenario: pid 5, one lock, no edges. -/
def pidFile1 : TraceFile :=
  { t := 0, thrno := 0, pid := 5,
    body := [ .int (-1), .int 0, .int 0, .str "p1", .int 1 ] }

/-- Second file of the pid-mismatch scenario: pid 6; if it were ingested
it would add a lock with a self-cycle and force exit code 1. -/
def pidFileBad : TraceFile :=
  { t := 0, thrno := 1, pid := 6,
    body :=
      [ .int (-1), .int 1, .int 0, .str "p2", .int 2,
        .int 1, .int 0, .int 1, .int 0, .str "p2w", .int 3 ] }

/-- Third file of the pid-mismatch scenario: pid 5 again, fresh thread
number, one more lock. -/
def pidFile3 : TraceFile :=
  { t := 10, thrno := 2, pid := 5,
    body := [ .int (-1), .int 2, .int 0, .str "p3", .int 4 ] }

/-- Trace file whose ordering record carries the negative discriminant
`-2`, referring to a lock whose creating thread id is `-2`. -/
def negDiscFile : TraceFile :=
  { t := 0, thrno := 0, pid := 5,
    body :=
      [ .int (-1), .int (-2), .int 0, .str "n", .int 1,
        .int (-1), .int 0, .int 0, .str "m", .int 2,
        .int (-2), .int 0, .int 0, .int 0, .str "nm", .int 7 ] }

/-- Header state after a first file established time 0 and pid 5 on
thread 0. -/
def hsRef : HeaderState :=
  { have_values := true, the_time := 0, the_pid := 5,
    threads := fun i => if i = 0 then true else false }

/-- Whether a header read succeeded and accepted the file. -/
def header_accepts (r : Except Fatal (Bool × HeaderState)) : Bool :=
  match r with
  | .ok (b, _) => b
  | .error _ => false

@[simp]
theorem order_lock_cmp_self (a : OrderId) : order_lock_cmp a a = 0 := by
  simp [order_lock_cmp]

theorem order_lock_cmp_eq_zero_iff (a b : OrderId) :
    order_lock_cmp a b = 0 ↔ a = b := by
  cases a; cases b
  simp only [order_lock_cmp, OrderId.mk.injEq]
  split_ifs <;> simp <;> omega

theorem ref_insert_of_fresh (l : List LockRef) (r : LockRef)
    (h : ∀ x ∈ l, x.lockId ≠ r.lockId) :
    ref_insert r l = some (smaller_insert l r) := by
  induction l with
  | nil => rfl
  | cons x xs ih =>
    have hx : x.lockId ≠ r.lockId := h x (List.mem_cons_self x xs)
    have hxs : ∀ y ∈ xs, y.lockId ≠ r.lockId :=
      fun y hy => h y (List.mem_cons_of_mem x hy)
    simp only [ref_insert, smaller_insert]
    split_ifs with h1 h2
    · rfl
    · exact absurd ((order_lock_cmp_eq_zero_iff _ _).1 h2).symm hx
    · rw [ih hxs]
      rfl

theorem smaller_insert_cons_gt (x : LockRef) (xs : List LockRef) (r : LockRef)
    (h1 : ¬ order_lock_cmp r.lockId x.lockId < 0)
    (h2 : ¬ order_lock_cmp r.lockId x.lockId = 0)
    (hxs : ∀ y ∈ xs, y.lockId ≠ r.lockId) :
    smaller_insert (x :: xs) r = x :: smaller_insert xs r := by
  simp only [smaller_insert, ref_insert]
  rw [if_neg h1, if_neg h2, ref_insert_of_fresh xs r hxs]
  rfl

theorem ref_insert_dup_none (l : List LockRef) (r1 r2 : LockRef)
    (hkey : r2.lockId = r1.lockId)
    (hfresh : ∀ x ∈ l, x.lockId ≠ r1.lockId) :
    ref_insert r2 (smaller_insert l r1) = none := by
  induction l with
  | nil => simp [smaller_insert, ref_insert, hkey]
  | cons x xs ih =>
    have hx : x.lockId ≠ r1.lockId := hfresh x (List.mem_cons_self x xs)
    have hxs : ∀ y ∈ xs, y.lockId ≠ r1.lockId :=
      fun y hy => hfresh y (List.mem_cons_of_mem x hy)
    by_cases c1 : order_lock_cmp r1.lockId x.lockId < 0
    · simp [smaller_insert, ref_insert, c1, hkey]
    · by_cases c2 : order_lock_cmp r1.lockId x.lockId = 0
      · exact absurd ((order_lock_cmp_eq_zero_iff _ _).1 c2).symm hx
      · rw [smaller_insert_cons_gt x xs r1 c1 c2 hxs]
        simp only [ref_insert, hkey, if_neg c1, if_neg c2]
        rw [ih hxs]
        rfl

theorem lookupRef_smaller_insert (l : List LockRef) (r : LockRef)
    (hfresh : ∀ x ∈ l, x.lockId ≠ r.lockId) :
    lookupRef (smaller_insert l r) r.lockId = some r := by
  induction l with
  | nil => simp [smaller_insert, ref_insert, lookupRef]
  | cons x xs ih =>
    have hx : x.lockId ≠ r.lockId := hfresh x (List.mem_cons_self x xs)
    have hxs : ∀ y ∈ xs, y.lockId ≠ r.lockId :=
      fun y hy => hfresh y (List.mem_cons_of_mem x hy)
    by_cases c1 : order_lock_cmp r.lockId x.lockId < 0
    · simp [smaller_insert, ref_insert, c1, lookupRef]
    · by_cases c2 : order_lock_cmp r.lockId x.lockId = 0
      · exact absurd ((order_lock_cmp_eq_zero_iff _ _).1 c2).symm hx
      · rw [smaller_insert_cons_gt x xs r c1 c2 hxs]
        have hcmp : order_lock_cmp r.lockId x.lockId ≠ 0 := c2
        simp only [lookupRef, List.find?]
        rw [show (order_lock_cmp r.lockId x.lockId == 0) = false by
              simpa using hcmp]
        exact ih hxs

theorem countKey_eq_zero (l : List LockRef) (k : OrderId)
    (h : ∀ x ∈ l, x.lockId ≠ k) : countKey l k = 0 := by
  induction l with
  | nil => rfl
  | cons x xs ih =>
    have hx : x.lockId ≠ k := h x (List.mem_cons_self x xs)
    have hxs : ∀ y ∈ xs, y.lockId ≠ k :=
      fun y hy => h y (List.mem_cons_of_mem x hy)
    simp only [countKey, List.filter]
    rw [show (x.lockId == k) = false by simpa using hx]
    exact ih hxs

theorem countKey_smaller_insert (l : List LockRef) (r : LockRef)
    (hfresh : ∀ x ∈ l, x.lockId ≠ r.lockId) :
    countKey (smaller_insert l r) r.lockId = 1 := by
  induction l with
  | nil => simp [smaller_insert, ref_insert, countKey]
  | cons x xs ih =>
    have hx : x.lockId ≠ r.lockId := hfresh x (List.mem_cons_self x xs)
    have hxs : ∀ y ∈ xs, y.lockId ≠ r.lockId :=
      fun y hy => hfresh y (List.mem_cons_of_mem x hy)
    by_cases c1 : order_lock_cmp r.lockId x.lockId < 0
    · simp only [smaller_insert, ref_insert, if_pos c1, Option.getD_some,
        countKey, List.filter, beq_self_eq_true]
      have : countKey (x :: xs) r.lockId = 0 := countKey_eq_zero _ _ hfresh
      simpa [countKey, List.filter] using this
    · by_cases c2 : order_lock_cmp r.lockId x.lockId = 0
      · exact absurd ((order_lock_cmp_eq_zero_iff _ _).1 c2).symm hx
      · rw [smaller_insert_cons_gt x xs r c1 c2 hxs]
        simp only [countKey, List.filter]
        rw [show (x.lockId == r.lockId) = false by simpa using hx]
        exact ih hxs

/-- C4: when a `smaller` set does not yet hold the earlier lock's key,
inserting two edges with that key (as two ordering records naming the same
pair do) leaves the set with exactly one edge for it: the second insertion
is silently dropped (the set is unchanged by it) and the stored witness is
the first record's. -/
theorem smaller_insert_dedup_first_wins
    (l : List LockRef) (r1 r2 : LockRef)
    (hkey : r2.lockId = r1.lockId)
    (hfresh : ∀ x ∈ l, x.lockId ≠ r1.lockId) :
    smaller_insert (smaller_insert l r1) r2 = smaller_insert l r1 ∧
    lookupRef (smaller_insert (smaller_insert l r1) r2) r1.lockId = some r1 ∧
    countKey (smaller_insert (smaller_insert l r1) r2) r1.lockId = 1 := by
  have hnone := ref_insert_dup_none l r1 r2 hkey hfresh
  have hdrop : smaller_insert (smaller_insert l r1) r2 = smaller_insert l r1 := by
    have hu : smaller_insert (smaller_insert l r1) r2
        = (ref_insert r2 (smaller_insert l r1)).getD (smaller_insert l r1) := rfl
    rw [hu, hnone]
    rfl
  refine ⟨hdrop, ?_, ?_⟩
  · rw [hdrop]
    exact lookupRef_smaller_insert l r1 hfresh
  · rw [hdrop]
    exact countKey_smaller_insert l r1 hfresh

/-- Concrete instance of the dedup property: a second edge for key (0,0)
is dropped and the first witness site survives. -/
theorem smaller_insert_dedup_first_wins_witness :
    smaller_insert (smaller_insert [⟨⟨1, 1⟩, "x", 1⟩] ⟨⟨0, 0⟩, "first", 10⟩)
        ⟨⟨0, 0⟩, "second", 20⟩
      = smaller_insert [⟨⟨1, 1⟩, "x", 1⟩] ⟨⟨0, 0⟩, "first", 10⟩ ∧
    lookupRef (smaller_insert (smaller_insert [⟨⟨1, 1⟩, "x", 1⟩]
        ⟨⟨0, 0⟩, "first", 10⟩) ⟨⟨0, 0⟩, "second", 20⟩) ⟨0, 0⟩
      = some ⟨⟨0, 0⟩, "first", 10⟩ ∧
    countKey (smaller_insert (smaller_insert [⟨⟨1, 1⟩, "x", 1⟩]
        ⟨⟨0, 0⟩, "first", 10⟩) ⟨⟨0, 0⟩, "second", 20⟩) ⟨0, 0⟩ = 1 :=
  smaller_insert_dedup_first_wins [⟨⟨1, 1⟩, "x", 1⟩] ⟨⟨0, 0⟩, "first", 10⟩
    ⟨⟨0, 0⟩, "second", 20⟩ rfl (by decide)

/-- C1: for the registry built from creation records for locks A, B, C and
exactly the edges A<B, B<C, C<A, the full sweep in key order detects
exactly one cycle (error counter 1, one report); and a top-level run
rooted at a lock already marked visited returns immediately with the state
unchanged, so it reports nothing further. -/
theorem abc_cycle_detected_once :
    (abcSweep.map (·.errors) = some 1 ∧
     abcSweep.map (·.reports.length) = some 1) ∧
    ∀ (reg : Registry) (fuel : Nat) (st : Sweep) (lk : OrderLock),
      st.visited lk.id = true → check_order_lock reg fuel st lk = some st := by
  constructor
  · exact ⟨rfl, rfl⟩
  · intro reg fuel st lk h
    simp [check_order_lock, h]

/-- Instance of the visited-lock early return at a concrete state. -/
theorem abc_cycle_detected_once_witness :
    check_order_lock [] 0 { initSweep with visited := fun _ => true }
        (mkLock 0 0 "a" 1)
      = some { initSweep with visited := fun _ => true } :=
  abc_cycle_detected_once.2 [] 0 _ _ rfl

/-- C3: an ordering record (any discriminant other than -1) whose earlier
or later lock id is not in the registry makes the record loop return the
fatal "Could not find locks involved" error: the run aborts, the record is
not skipped. -/
theorem ordering_record_unknown_id_fatal
    (all : Registry) (v pinst nthr ninst : Int) (f : String) (line : Int)
    (rest : List Tok) (hv : v ≠ -1) (hf : f.length < 1024)
    (h : reg_search all ⟨v, pinst⟩ = none ∨
         reg_search all ⟨nthr, ninst⟩ = none) :
    read_records all
        (.int v :: .int pinst :: .int nthr :: .int ninst ::
          .str f :: .int line :: rest)
      = .error .lockNotFound := by
  have hlen : ¬ 1024 ≤ f.length := by omega
  simp only [read_records]
  rw [if_neg hv]
  rcases h with h | h
  · cases h2 : reg_search all ⟨nthr, ninst⟩ <;>
      simp [read_lock, hlen, h, h2]
  · cases h1 : reg_search all ⟨v, pinst⟩ <;>
      simp [read_lock, hlen, h, h1]

/-- Instance of the fatal unknown-id error on an empty registry. -/
theorem ordering_record_unknown_id_fatal_witness :
    read_records []
        [.int 0, .int 0, .int 0, .int 0, .str "w", .int 7]
      = .error .lockNotFound :=
  ordering_record_unknown_id_fatal [] 0 0 0 0 "w" 7 [] (by decide)
    (by decide) (Or.inl rfl)

/-- C6: once a first header has established the reference pid, a file
whose pid differs is skipped entirely — `readinput` returns the header
state and registry unchanged and no error — and in the three-file run
`pidFile1, pidFileBad, pidFile3` the mismatched middle file (which would
otherwise add a self-cycle) leaves no trace: the run finishes with zero
errors, exit code 0, and a registry holding only the two ingested locks. -/
theorem pid_mismatch_file_skipped :
    (∀ (hs : HeaderState) (all : Registry) (f : TraceFile),
        hs.have_values = true → hs.the_pid ≠ f.pid →
        readinput (hs, all) f = .ok (hs, all)) ∧
    lock_verify_main [pidFile1, pidFileBad, pidFile3] 30
      = some (.finished 0 0) ∧
    (run_files [pidFile1, pidFileBad, pidFile3]).toOption.map
        (fun st => st.2.map (·.id)) = some [⟨0, 0⟩, ⟨2, 0⟩] := by
  refine ⟨?_, rfl, rfl⟩
  intro hs all f h1 h2
  simp [readinput, read_header, h1, h2]

/-- Instance of the skip: `pidFileBad` against the reference state leaves
state and registry untouched. -/
theorem pid_mismatch_file_skipped_witness :
    readinput (hsRef, ([] : Registry)) pidFileBad = .ok (hsRef, []) :=
  pid_mismatch_file_skipped.1 hsRef [] pidFileBad rfl (by decide)

/-- C7 (amended): with the reference established, a matching pid and a
fresh thread number, the header read aborts with the time-mismatch fatal
error if and only if the difference between the reference time and the
file's timestamp, truncated to a signed 32-bit int by the `(int)` cast,
exceeds 3600 in absolute value. -/
theorem timestamp_check_truncated_iff (hs : HeaderState) (t thrno p : Int)
    (h1 : hs.have_values = true) (h2 : hs.the_pid = p)
    (h3 : hs.threads thrno = false) :
    read_header hs t thrno p = .error .timeMismatch ↔
      3600 < (toInt32 (hs.the_time - t)).natAbs := by
  simp only [read_header, h1, h2, h3, Bool.not_true, Bool.false_eq_true,
    if_false, ne_eq, not_true_eq_false]
  constructor
  · intro h
    by_contra hc
    rw [if_neg hc] at h
    exact Except.noConfusion h
  · intro h
    rw [if_pos h]

/-- Instance of the fatal time mismatch at a plain 5000-second gap. -/
theorem timestamp_check_truncated_iff_witness :
    read_header hsRef 5000 1 5 = .error .timeMismatch :=
  (timestamp_check_truncated_iff hsRef 5000 1 5 rfl rfl rfl).mpr (by decide)

/-- C7 counterexample: a file whose timestamp differs from the reference
by 2^32 seconds — far more than 3600 — is accepted, because the `(int)`
cast wraps the difference to 0 before the comparison. -/
theorem timestamp_wraparound_not_fatal :
    header_accepts (read_header hsRef (2 ^ 32) 1 5) = true ∧
    3600 < (hsRef.the_time - 2 ^ 32).natAbs := by
  constructor <;> decide

/-- C8: with no input files the program prints usage and exits 1 without
reading anything; and whenever a run finishes the sweep, the exit code is
0 exactly when the accumulated error count is 0. -/
theorem exit_code_contract :
    (∀ fuel, lock_verify_main [] fuel = some (.usageExit 1)) ∧
    ∀ (files : List TraceFile) (fuel : Nat) (errs code : Nat),
      lock_verify_main files fuel = some (.finished errs code) →
      (code = 0 ↔ errs = 0) := by
  constructor
  · intro fuel
    rfl
  · intro files fuel errs code h
    simp only [lock_verify_main] at h
    split at h
    · simp at h
    · split at h
      · simp at h
      · split at h
        · exact absurd h (by simp)
        · rename_i sw _
          simp only [Option.some.injEq, MainOutcome.finished.injEq] at h
          obtain ⟨he, hc⟩ := h
          subst he
          subst hc
          unfold main_exit_code
          by_cases h0 : sw.errors = 0 <;> simp [h0]

/-- Instance of the exit contract on a finished run with zero errors. -/
theorem exit_code_contract_witness :
    lock_verify_main [pidFile1] 30 = some (.finished 0 0) ∧
    ((0 : Nat) = 0 ↔ (0 : Nat) = 0) :=
  ⟨rfl, exit_code_contract.2 [pidFile1] 30 0 0 rfl⟩

/-- C9: on the non-skipped path (reference established, pid matching) the
header read subscripts the 256-entry `threads` array with the thread
number taken straight from the file — every access it performs is in
bounds precisely when `0 <= thrno < 256` — and the thread number is indeed
recorded at that index on acceptance; a file carrying thread number 256
makes the access out of bounds. -/
theorem threads_index_unchecked :
    (∀ (hs : HeaderState) (t thrno p : Int) (hs2 : HeaderState) (b : Bool),
        read_header hs t thrno p = .ok (b, hs2) → b = true →
        hs2.threads thrno = true) ∧
    (∀ (hs : HeaderState) (thrno p : Int),
        hs.have_values = true → hs.the_pid = p →
        ((∀ i ∈ read_header_indices hs thrno p, idxInBounds i) ↔
          (0 ≤ thrno ∧ thrno < 256))) ∧
    ¬ (∀ i ∈ read_header_indices hsRef 256 5, idxInBounds i) := by
  refine ⟨?_, ?_, by decide⟩
  · intro hs t thrno p hs2 b h hb
    subst hb
    simp only [read_header] at h
    split at h
    · simp only [Except.ok.injEq, Prod.mk.injEq] at h
      rw [← h.2]
      simp
    · split at h
      · simp at h
      · split at h
        · exact Except.noConfusion h
        · split at h
          · exact Except.noConfusion h
          · simp only [Except.ok.injEq, Prod.mk.injEq] at h
            rw [← h.2]
            simp
  · intro hs thrno p h1 h2
    simp only [read_header_indices, h1, h2, Bool.not_true, Bool.false_eq_true,
      if_false, ne_eq, not_true_eq_false]
    split
    · simp [idxInBounds]
    · simp [idxInBounds]

/-- Instances of the bounds characterisation: thread number 7 keeps every
access in bounds, and an accepted first header records its thread number. -/
theorem threads_index_unchecked_witness :
    (∀ i ∈ read_header_indices hsRef 7 5, idxInBounds i) ∧
    ({ have_values := true, the_time := 0, the_pid := 5,
       threads := fun i => if i = 3 then true else false : HeaderState }).threads 3
      = true :=
  ⟨(threads_index_unchecked.2.1 hsRef 7 5 rfl rfl).mpr (by decide),
   threads_index_unchecked.1 initHeaderState 0 3 5 _ true rfl rfl⟩

/-- C10: in the record-dispatch loop every discriminant other than -1 —
negative values such as -2 included — is handed to `read_lock` with the
discriminant as the earlier lock's thread id; no discriminant is rejected.
Concretely, a record with discriminant -2 referring to a lock created by
thread id -2 parses as an ordering record and installs the edge. -/
theorem nonminusone_discriminant_is_ordering :
    (∀ (all : Registry) (fst : Int) (rest : List Tok), fst ≠ -1 →
        read_records all (.int fst :: rest) = read_lock all fst rest) ∧
    (run_files [negDiscFile]).toOption.map
        (fun st => st.2.map fun lk => (lk.id, lk.smaller.map (·.lockId)))
      = some [(⟨-2, 0⟩, []), (⟨0, 0⟩, [⟨-2, 0⟩])] := by
  refine ⟨?_, rfl⟩
  intro all fst rest h
  simp only [read_records]
  rw [if_neg h]

/-- Instance of the dispatch equation at discriminant -2. -/
theorem nonminusone_discriminant_is_ordering_witness :
    read_records [] [Tok.int (-2)] = read_lock [] (-2) [] :=
  nonminusone_discriminant_is_ordering.1 [] (-2) [] (by decide)

/-- C2: a lock whose `smaller` set holds an edge to itself is reported by
the sweep as exactly one cycle of length 1 (found at recursion level 1,
which `found_cycle` prints as the length), the error counter ends at 1
when that lock is the whole registry, and the resulting exit code is 1 —
shown end to end on `selfFile`. -/
theorem self_cycle_reported (k : Nat) (thr inst : Int) (cf : String)
    (cl : Int) (wf : String) (wl : Int) :
    (check_order [selfLock thr inst cf cl wf wl] (k + 1 + 1)).map
        (fun sw => (sw.errors, sw.reports.map (·.length))) = some (1, [1]) ∧
    main_exit_code 1 = 1 ∧
    lock_verify_main [selfFile] 30 = some (.finished 1 1) := by
  refine ⟨?_, rfl, rfl⟩
  simp [check_order, check_order_lock, search_cycle, detect_cycle,
    found_cycle, cycle_walk, initSweep, selfLock, reg_search, List.foldlM,
    List.find?, main_exit_code]

/-- C5 counterexample: in the A-B-C cycle report the printed witness site
is "ab" line 11 at every step of the walk, while the edges actually walked
at steps 1 and 2 carry the witness sites "bc" line 12 and "ca" line 13 —
so the reporter does not print each step's own edge witness. -/
theorem cycle_report_prints_detection_site_not_step_site :
    abcSweep.map (·.reports.map fun r => r.steps.map fun s =>
        ((s.printedFile, s.printedLine), (s.edgeFile, s.edgeLine)))
      = some [[(("ab", 11), ("ab", 11)),
               (("ab", 11), ("bc", 12)),
               (("ab", 11), ("ca", 13))]] ∧
    (("ab", (11 : Int)) ≠ ("bc", (12 : Int))) := by
  refine ⟨rfl, by decide⟩

/-- C5 (amended): the reporter prints the cycle length and the head lock
with its creation site, then walks the `dfs_next` chain from the detection
point, printing at every step the witness site of the detection-point edge
(the same site each time) together with the next lock's id and creation
site, and stops once the walk returns to the lock that closes the cycle —
as the full A-B-C report shows concretely. -/
theorem cycle_walk_prints_detection_witness :
    (∀ (fuel : Nat) (reg : Registry) (dn : OrderId → Option LockRef)
        (visit p : LockRef) (i : Nat) (steps : List StepLine),
        cycle_walk reg dn visit fuel p i = some steps →
        ∀ s ∈ steps, s.printedFile = visit.file ∧ s.printedLine = visit.line) ∧
    abcSweep.map (·.reports) = some
      [⟨3, ⟨0, 0⟩, "a", 1,
        [⟨0, "ab", 11, ⟨0, 1⟩, "b", 2, "ab", 11⟩,
         ⟨1, "ab", 11, ⟨0, 2⟩, "c", 3, "bc", 12⟩,
         ⟨2, "ab", 11, ⟨0, 0⟩, "a", 1, "ca", 13⟩]⟩] := by
  refine ⟨?_, rfl⟩
  intro fuel
  induction fuel with
  | zero =>
    intro reg dn visit p i steps h
    exact Option.noConfusion h
  | succ n ih =>
    intro reg dn visit p i steps h
    simp only [cycle_walk] at h
    split at h
    · exact Option.noConfusion h
    · split at h
      · simp only [Option.some.injEq] at h
        subst h
        intro s hs
        simp only [List.mem_singleton] at hs
        subst hs
        exact ⟨rfl, rfl⟩
      · split at h
        · simp only [Option.some.injEq] at h
          subst h
          intro s hs
          simp only [List.mem_singleton] at hs
          subst hs
          exact ⟨rfl, rfl⟩
        · rename_i r heq hne
          simp only [Option.map_eq_some'] at h
          obtain ⟨rest2, hrest, hsteps⟩ := h
          subst hsteps
          intro s hs
          rcases List.mem_cons.1 hs with hs | hs
          · subst hs
            exact ⟨rfl, rfl⟩
          · exact ih reg dn visit r (i + 1) rest2 hrest s hs

/-- Instance of the amended print property on a one-step walk. -/
theorem cycle_walk_prints_detection_witness_witness :
    (⟨0, "v", 9, ⟨0, 0⟩, "a", 1, "v", 9⟩ : StepLine).printedFile = "v" ∧
    (⟨0, "v", 9, ⟨0, 0⟩, "a", 1, "v", 9⟩ : StepLine).printedLine = 9 :=
  cycle_walk_prints_detection_witness.1 5 [mkLock 0 0 "a" 1]
    (fun _ => none) ⟨⟨0, 0⟩, "v", 9⟩ ⟨⟨0, 0⟩, "v", 9⟩ 0
    [⟨0, "v", 9, ⟨0, 0⟩, "a", 1, "v", 9⟩] rfl
    ⟨0, "v", 9, ⟨0, 0⟩, "a", 1, "v", 9⟩ (by simp)
